import Mathlib

/-!
Verification of the Secure Messaging System cryptographic core
(src/Secure Messaging System/{primitives.rs, x3dh.rs, crypto/double_ratchet.rs}).

The Rust code is embedded shallowly.  The external cryptographic libraries
(chacha20poly1305, hkdf, hmac, sha2, x25519-dalek, ed25519-dalek) are modelled
symbolically: byte strings that flow through the protocol are terms of a free
algebra `Tm`, the primitives are the corresponding constructors, and the ideal
functional behaviour of the primitives (AEAD opens exactly the matching seal,
Ed25519 verification accepts exactly the matching signature, X25519 is a
commutative two-party operation on honestly generated keys) is reflected by the
evaluation functions below.  Everything written by the repository itself —
control flow, state updates, counters, the MAX_SKIP bound, error selection,
the order of operations — is translated statement by statement from the source.

`rand::thread_rng()` is embedded as a deterministic name supply: each
`RatchetState` carries a tag and a counter, and a freshly generated X25519
secret is the atom `XSec.fresh tag ctr`.
-/

set_option maxHeartbeats 1000000

/-- Atoms for X25519 secret keys (`x25519_dalek::StaticSecret`).
`named` is an explicitly constructed secret (signed prekey, Bob's initial DH
key, an ephemeral key), `ofEd n` is `StaticSecret::from(signing_key.to_bytes())`
for the Ed25519 signing key numbered `n`, and `fresh tag ctr` is a secret
drawn from the RNG. -/
inductive XSec where
  | named : Nat → XSec
  | ofEd : Nat → XSec
  | fresh : Nat → Nat → XSec
deriving DecidableEq, Repr

/-- Ed25519 verifying keys (`ed25519_dalek::VerifyingKey`): the public half of
the signing key numbered `n`. -/
inductive EdPub where
  | ofSec : Nat → EdPub
deriving DecidableEq, Repr

/-- X25519 public keys (`x25519_dalek::PublicKey`).  `ofSec` is
`PublicKey::from(&secret)`; `hashEd` is the repository's
`ed25519_to_x25519_public`, which interprets `SHA-256(ed_public_bytes)` as an
X25519 public key (x3dh.rs lines 124-131).  A SHA-256 hash of a public point
is unrelated to the X25519 public key of the corresponding secret scalar, so
`hashEd` is a constructor distinct from `ofSec`. -/
inductive XPub where
  | ofSec : XSec → XPub
  | hashEd : EdPub → XPub
deriving DecidableEq, Repr

/-- Symbolic byte strings.  `lit` is a concrete byte list; `app` is
concatenation; the remaining constructors are the outputs of the cryptographic
primitives used by the repository. -/
inductive Tm where
  | lit : List Nat → Tm
  | app : Tm → Tm → Tm
  | keyNamed : Nat → Tm
  | dhS : XSec → XSec → Tm
  | dhH : XSec → EdPub → Tm
  | hkdf : Tm → Tm → Tm → Tm
  | hmac : Tm → Tm → Tm
  | pubBytes : XPub → Tm
  | edPubBytes : EdPub → Tm
  | aead : Tm → Tm → List Nat → Tm → Tm
  | sigBytes : Nat → Tm → Tm
  | slice : Tm → Nat → Nat → Tm
  | flip : Tm → Nat → Tm
deriving DecidableEq, Repr

/-- An injective code used only to pick a canonical order of the two secrets
inside a Diffie-Hellman output. -/
def XSec.code : XSec → Nat
  | .named n => 3 * n
  | .ofEd n => 3 * n + 1
  | .fresh t c => 3 * (Nat.pair t c) + 2

theorem XSec.code_inj : ∀ {a b : XSec}, a.code = b.code → a = b := by
  intro a b h
  cases a <;> cases b <;> simp only [XSec.code] at h
  · exact congrArg XSec.named (by omega)
  · exfalso; omega
  · exfalso; omega
  · exfalso; omega
  · exact congrArg XSec.ofEd (by omega)
  · exfalso; omega
  · exfalso; omega
  · exfalso; omega
  · rename_i t c t2 c2
    have hp : Nat.pair t c = Nat.pair t2 c2 := by omega
    obtain ⟨h1, h2⟩ := Nat.pair_eq_pair.mp hp
    subst h1; subst h2; rfl

/-- `primitives::dh`: X25519 Diffie-Hellman.  On two honestly generated key
pairs the two parties compute the same shared secret; this is reflected by
sorting the pair of secrets into a canonical order.  Against a public key that
is not the public half of any secret (the SHA-256-derived keys of
`ed25519_to_x25519_public`) there is no such algebraic relation. -/
def dh (s : XSec) (p : XPub) : Tm :=
  match p with
  | .ofSec s2 => if s.code ≤ s2.code then Tm.dhS s s2 else Tm.dhS s2 s
  | .hashEd e => Tm.dhH s e

theorem dh_comm (a b : XSec) : dh a (XPub.ofSec b) = dh b (XPub.ofSec a) := by
  simp only [dh]
  rcases Nat.lt_trichotomy a.code b.code with h | h | h
  · rw [if_pos (Nat.le_of_lt h), if_neg (by omega)]
  · have hab : a = b := XSec.code_inj h
    subst hab; rfl
  · rw [if_neg (by omega), if_pos (Nat.le_of_lt h)]

/-- ASCII bytes of a string literal (info strings of the KDF calls). -/
def ascii (s : String) : List Nat := s.toList.map Char.toNat

/-- `w` bytes, little-endian, of `n` (bincode v1 fixed-int encoding). -/
def leBytes (w n : Nat) : List Nat :=
  match w with
  | 0 => []
  | Nat.succ k => (n % 256) :: leBytes k (n / 256)

/-- `w` bytes, big-endian, of `n`. -/
def beBytes (w n : Nat) : List Nat := (leBytes w n).reverse

/-- `primitives::CryptoError`. -/
inductive CryptoError where
  | EncryptionFailed
  | DecryptionFailed
  | InvalidKeySize
  | InvalidSignature
  | KeyDerivationFailed
  | AuthenticationFailed
deriving DecidableEq, Repr

/-- `primitives::kdf_hkdf (ikm, salt, info)`. -/
def kdf_hkdf (ikm salt info : Tm) : Tm := Tm.hkdf ikm salt info

/-- `primitives::MessageKeys`. -/
structure MessageKeys where
  encryption_key : Tm
  auth_key : Tm
  iv : Tm
deriving DecidableEq, Repr

/-- `primitives::kdf_message_keys`.  The new chain key is
`HMAC(ck, [0x02])`; the message key material `mk = HMAC(ck, [0x01])` is 32
bytes, so `mk[0..32]` is `mk` itself; the IV is the byte window `mk[20..32]`.
The Rust function returns `Result` but its error paths (HMAC key-size and
32-byte slice conversion) are unreachable, so it is embedded as total. -/
def kdf_message_keys (ck : Tm) : MessageKeys × Tm :=
  let newChain := Tm.hmac ck (Tm.lit [2])
  let mk := Tm.hmac ck (Tm.lit [1])
  ({ encryption_key := mk,
     auth_key := Tm.hkdf mk (Tm.lit (ascii "auth")) (Tm.lit (ascii "message-auth")),
     iv := Tm.slice mk 20 32 }, newChain)

/-- `primitives::decrypt`: ChaCha20-Poly1305 open.  Succeeds exactly on the
ciphertext sealed with the same key, nonce and associated data (ideal AEAD);
everything else fails with `DecryptionFailed`, as in the source. -/
def aeadOpen (key iv ct ad : Tm) : Except CryptoError (List Nat) :=
  match ct with
  | Tm.aead k i p a =>
      if k = key ∧ i = iv ∧ a = ad then Except.ok p else Except.error CryptoError.DecryptionFailed
  | _ => Except.error CryptoError.DecryptionFailed

/-- Ed25519 verification (`VerifyingKey::verify`): accepts exactly a signature
produced by the matching signing key over exactly these bytes (ideal
signatures).  `Signature::from_slice` failure and verification failure both
surface as `InvalidSignature` in the source, so they are merged. -/
def verifySig (k : EdPub) (data sg : Tm) : Bool :=
  match k with
  | EdPub.ofSec n => sg = Tm.sigBytes n data

/-- `double_ratchet::MAX_SKIP`. -/
def MAX_SKIP : Nat := 1000

/-- 2^32: the modulus of the `u32` counters. -/
def U32 : Nat := 4294967296

/-- `double_ratchet::MessageHeader`.  `dh_public` is a 32-byte `Vec<u8>` in
the source, parsed with `PublicKey::from` on receipt; it is embedded as the
public key itself. -/
structure MessageHeader where
  dh_public : XPub
  prev_chain_length : Nat
  message_number : Nat
deriving DecidableEq, Repr

/-- `double_ratchet::RatchetMessage`. -/
structure RatchetMessage where
  header : MessageHeader
  ciphertext : Tm
  signature : Tm
deriving DecidableEq, Repr

/-- bincode v1 serialisation of `MessageHeader` (`bincode::serialize`): the
`Vec<u8>` gets an 8-byte little-endian length prefix (the length is 32),
followed by the raw public-key bytes, then the two `u32` fields in fixed-width
little-endian encoding. -/
def encodeHeader (h : MessageHeader) : Tm :=
  Tm.app (Tm.lit (leBytes 8 32))
    (Tm.app (Tm.pubBytes h.dh_public)
      (Tm.lit (leBytes 4 h.prev_chain_length ++ leBytes 4 h.message_number)))

/-- Modelled from the spec: section 4.4 claims the canonical encoding signed
with each message is "32-byte DH public, big-endian 4-byte prev_chain_length,
big-endian 4-byte message_number" — no length prefix, big-endian fields.
Stated only to compare against `encodeHeader`, the encoding the source
actually signs. -/
def canonicalEncodeSpec (h : MessageHeader) : Tm :=
  Tm.app (Tm.pubBytes h.dh_public)
    (Tm.lit (beBytes 4 h.prev_chain_length ++ beBytes 4 h.message_number))

/-- The skipped-keys store: `HashMap<(PublicKey, u32), MessageKeys>` embedded
as an association list with unique keys. -/
abbrev SkMap : Type := List ((XPub × Nat) × MessageKeys)

/-- `HashMap::insert`: replace the value when the key is present, otherwise
add the entry. -/
def mapInsert (m : SkMap) (k : XPub × Nat) (v : MessageKeys) : SkMap :=
  match m with
  | [] => [(k, v)]
  | e :: rest => if e.1 = k then (k, v) :: rest else e :: mapInsert rest k v

/-- `HashMap::remove`: the removed value (if any) together with the remaining
map. -/
def mapRemove (m : SkMap) (k : XPub × Nat) : Option (MessageKeys × SkMap) :=
  match m with
  | [] => none
  | e :: rest =>
      if e.1 = k then some (e.2, rest)
      else (mapRemove rest k).map (fun p => (p.1, e :: p.2))

/-- `double_ratchet::RatchetState`.  `rngTag`/`rngCtr` embed
`rand::thread_rng()` as a deterministic name supply (they are not state of the
Rust struct). -/
structure RatchetState where
  dh_self : XSec
  dh_remote : Option XPub
  root_key : Tm
  chain_key_send : Option Tm
  send_counter : Nat
  chain_key_recv : Option Tm
  recv_counter : Nat
  prev_chain_length : Nat
  skipped_keys : SkMap
  identity_key : Nat
  remote_identity : Option EdPub
  rngTag : Nat
  rngCtr : Nat
deriving DecidableEq

/-- `RatchetState::kdf_rk`. -/
def kdf_rk (root_key dh_output : Tm) : Tm × Tm :=
  (kdf_hkdf dh_output root_key (Tm.lit (ascii "root-chain")),
   kdf_hkdf dh_output root_key (Tm.lit (ascii "chain-key")))

/-- `RatchetState::init_alice`. -/
def init_alice (shared_secret : Tm) (remote_public_key : XPub) (identity_key : Nat)
    (remote_identity : EdPub) (rngTag : Nat) : RatchetState :=
  let dh_self := XSec.fresh rngTag 0
  let dh_output := dh dh_self remote_public_key
  let rc := kdf_rk shared_secret dh_output
  { dh_self := dh_self
    dh_remote := some remote_public_key
    root_key := rc.1
    chain_key_send := some rc.2
    send_counter := 0
    chain_key_recv := none
    recv_counter := 0
    prev_chain_length := 0
    skipped_keys := []
    identity_key := identity_key
    remote_identity := some remote_identity
    rngTag := rngTag
    rngCtr := 1 }

/-- `RatchetState::init_bob`. -/
def init_bob (shared_secret : Tm) (dh_keypair : XSec) (identity_key : Nat)
    (rngTag : Nat) : RatchetState :=
  { dh_self := dh_keypair
    dh_remote := none
    root_key := shared_secret
    chain_key_send := none
    send_counter := 0
    chain_key_recv := none
    recv_counter := 0
    prev_chain_length := 0
    skipped_keys := []
    identity_key := identity_key
    remote_identity := none
    rngTag := rngTag
    rngCtr := 0 }

/-- `RatchetState::set_remote_identity`. -/
def set_remote_identity (s : RatchetState) (remote_identity : EdPub) : RatchetState :=
  { s with remote_identity := some remote_identity }

/-- `RatchetState::dh_ratchet`. -/
def dh_ratchet (s : RatchetState) (remote_public : XPub) : RatchetState :=
  let s1 := { s with prev_chain_length := s.send_counter, send_counter := 0,
                     recv_counter := 0, dh_remote := some remote_public }
  let dh_output := dh s1.dh_self remote_public
  let rc := kdf_rk s1.root_key dh_output
  let s2 := { s1 with root_key := rc.1, chain_key_recv := some rc.2 }
  let newSelf := XSec.fresh s2.rngTag s2.rngCtr
  let s3 := { s2 with dh_self := newSelf, rngCtr := s2.rngCtr + 1 }
  let dh_output2 := dh newSelf remote_public
  let rc2 := kdf_rk s3.root_key dh_output2
  { s3 with root_key := rc2.1, chain_key_send := some rc2.2 }

/-- The `while self.recv_counter < until` loop body of
`RatchetState::skip_message_keys`, run `n = until - recv_counter` times
(inside the loop `recv_counter < until ≤ 2^32 - 1`, so the `u32` increment
cannot wrap). -/
def skipLoop (r : XPub) : Nat → Tm → Nat → SkMap → Tm × Nat × SkMap
  | 0, ck, c, m => (ck, c, m)
  | Nat.succ n, ck, c, m =>
      let km := kdf_message_keys ck
      skipLoop r n km.2 (c + 1) (mapInsert m (r, c) km.1)

/-- `RatchetState::skip_message_keys`.  The guard compares in `u32`
arithmetic; when either the receiving chain or the remote key is absent the
`if let` does not fire and the call silently succeeds. -/
def skipMessageKeys (s : RatchetState) (u : Nat) :
    Except CryptoError Unit × RatchetState :=
  if (s.recv_counter + MAX_SKIP) % U32 < u then
    (Except.error CryptoError.DecryptionFailed, s)
  else
    match s.chain_key_recv, s.dh_remote with
    | some ck, some r =>
        let out := skipLoop r (u - s.recv_counter) ck s.recv_counter s.skipped_keys
        (Except.ok (),
         { s with chain_key_recv := some out.1, recv_counter := out.2.1,
                  skipped_keys := out.2.2 })
    | _, _ => (Except.ok (), s)

/-- `RatchetState::encrypt`. -/
def encrypt (s : RatchetState) (plaintext associated_data : List Nat) :
    Except CryptoError RatchetMessage × RatchetState :=
  match s.chain_key_send with
  | none => (Except.error CryptoError.EncryptionFailed, s)
  | some ck =>
      let km := kdf_message_keys ck
      let s1 := { s with chain_key_send := some km.2 }
      let header : MessageHeader :=
        { dh_public := XPub.ofSec s.dh_self,
          prev_chain_length := s.prev_chain_length,
          message_number := s.send_counter }
      let header_bytes := encodeHeader header
      let ad := Tm.app header_bytes (Tm.lit associated_data)
      let ciphertext := Tm.aead km.1.encryption_key km.1.iv plaintext ad
      let s2 := { s1 with send_counter := (s1.send_counter + 1) % U32 }
      let to_sign := Tm.app header_bytes ciphertext
      let signature := Tm.sigBytes s.identity_key to_sign
      (Except.ok { header := header, ciphertext := ciphertext, signature := signature }, s2)

/-- The signature gate at the top of `RatchetState::decrypt`: verification is
performed only when a remote identity is stored. -/
def sigOk (s : RatchetState) (m : RatchetMessage) : Bool :=
  match s.remote_identity with
  | none => true
  | some k => verifySig k (Tm.app (encodeHeader m.header) m.ciphertext) m.signature

/-- `RatchetState::decrypt`.  `&mut self` with `?` early returns is embedded
by returning the (possibly partially mutated) state along with the result. -/
def decrypt (s : RatchetState) (m : RatchetMessage) (associated_data : List Nat) :
    Except CryptoError (List Nat) × RatchetState :=
  if sigOk s m then
    let remote_public := m.header.dh_public
    match mapRemove s.skipped_keys (remote_public, m.header.message_number) with
    | some mkRest =>
        (aeadOpen mkRest.1.encryption_key mkRest.1.iv m.ciphertext
           (Tm.app (encodeHeader m.header) (Tm.lit associated_data)),
         { s with skipped_keys := mkRest.2 })
    | none =>
        let step : Except CryptoError Unit × RatchetState :=
          if s.dh_remote = some remote_public then (Except.ok (), s)
          else
            let r1 := skipMessageKeys s m.header.prev_chain_length
            match r1.1 with
            | Except.error e => (Except.error e, r1.2)
            | Except.ok _ => (Except.ok (), dh_ratchet r1.2 remote_public)
        match step with
        | (Except.error e, s1) => (Except.error e, s1)
        | (Except.ok _, s1) =>
            let r2 := skipMessageKeys s1 m.header.message_number
            match r2.1 with
            | Except.error e => (Except.error e, r2.2)
            | Except.ok _ =>
                let s2 := r2.2
                match s2.chain_key_recv with
                | none => (Except.error CryptoError.DecryptionFailed, s2)
                | some ck =>
                    let km := kdf_message_keys ck
                    let s3 := { s2 with chain_key_recv := some km.2 }
                    match aeadOpen km.1.encryption_key km.1.iv m.ciphertext
                        (Tm.app (encodeHeader m.header) (Tm.lit associated_data)) with
                    | Except.error e => (Except.error e, s3)
                    | Except.ok pt =>
                        (Except.ok pt, { s3 with recv_counter := (s3.recv_counter + 1) % U32 })
  else (Except.error CryptoError.InvalidSignature, s)

/-- `x3dh::PreKeyBundle`.  The `Vec<u8>` fields are embedded as the parsed
keys; the size-check failures of `initiate` cannot fire on well-formed
bundles. -/
structure PreKeyBundle where
  identity_key : EdPub
  signed_prekey : XPub
  prekey_signature : Tm
  one_time_prekey : Option XPub
deriving DecidableEq

/-- `x3dh::X3DHResult`. -/
structure X3DHResult where
  shared_secret : Tm
  associated_data : Tm
  ephemeral_public : XPub
deriving DecidableEq

/-- `x3dh::X3DHInitiator` (the ephemeral key is drawn from the RNG in
`X3DHInitiator::new`; it is embedded as an explicit field). -/
structure X3DHInitiator where
  identity_key : Nat
  ephemeral_key : XSec
deriving DecidableEq

/-- `x3dh::X3DHReceiver`.  `signed_prekey_public` and `prekey_signature` are
recomputed from the other fields. -/
structure X3DHReceiver where
  identity_key : Nat
  signed_prekey : XSec
  one_time_prekey : Option XSec
deriving DecidableEq

/-- `X3DHReceiver::generate_bundle`. -/
def generate_bundle (r : X3DHReceiver) : PreKeyBundle :=
  { identity_key := EdPub.ofSec r.identity_key
    signed_prekey := XPub.ofSec r.signed_prekey
    prekey_signature :=
      Tm.sigBytes r.identity_key (Tm.pubBytes (XPub.ofSec r.signed_prekey))
    one_time_prekey := r.one_time_prekey.map XPub.ofSec }

/-- `X3DHReceiver::add_one_time_prekey`, with the RNG draw embedded as an
explicit fresh atom. -/
def add_one_time_prekey (r : X3DHReceiver) (k : XSec) : X3DHReceiver :=
  { r with one_time_prekey := some k }

/-- `X3DHInitiator::initiate`. -/
def initiate (ini : X3DHInitiator) (bundle : PreKeyBundle) :
    Except CryptoError X3DHResult :=
  if verifySig bundle.identity_key (Tm.pubBytes bundle.signed_prekey)
      bundle.prekey_signature then
    let identity_private := XSec.ofEd ini.identity_key
    let remote_identity_x25519 := XPub.hashEd bundle.identity_key
    let dh1 := dh identity_private bundle.signed_prekey
    let dh2 := dh ini.ephemeral_key remote_identity_x25519
    let dh3 := dh ini.ephemeral_key bundle.signed_prekey
    let dh_concat0 := Tm.app (Tm.app dh1 dh2) dh3
    let dh_concat :=
      match bundle.one_time_prekey with
      | some otpk => Tm.app dh_concat0 (dh ini.ephemeral_key otpk)
      | none => dh_concat0
    let shared_secret := kdf_hkdf dh_concat (Tm.lit []) (Tm.lit (ascii "X3DH-SharedSecret"))
    let ad := Tm.app (Tm.edPubBytes (EdPub.ofSec ini.identity_key))
                     (Tm.edPubBytes bundle.identity_key)
    Except.ok { shared_secret := shared_secret, associated_data := ad,
                ephemeral_public := XPub.ofSec ini.ephemeral_key }
  else Except.error CryptoError.InvalidSignature

/-- `X3DHReceiver::receive` (`&mut self`: the updated receiver is returned
alongside the result). -/
def x3dhReceive (r : X3DHReceiver) (initiator_identity : EdPub)
    (ephemeral_public : XPub) : Except CryptoError X3DHResult × X3DHReceiver :=
  let identity_private := XSec.ofEd r.identity_key
  let remote_identity_x25519 := XPub.hashEd initiator_identity
  let dh1 := dh r.signed_prekey remote_identity_x25519
  let dh2 := dh identity_private ephemeral_public
  let dh3 := dh r.signed_prekey ephemeral_public
  let dh_concat0 := Tm.app (Tm.app dh1 dh2) dh3
  let out :=
    match r.one_time_prekey with
    | some otpk =>
        (Tm.app dh_concat0 (dh otpk ephemeral_public), { r with one_time_prekey := none })
    | none => (dh_concat0, r)
  let shared_secret := kdf_hkdf out.1 (Tm.lit []) (Tm.lit (ascii "X3DH-SharedSecret"))
  let ad := Tm.app (Tm.edPubBytes initiator_identity)
                   (Tm.edPubBytes (EdPub.ofSec r.identity_key))
  (Except.ok { shared_secret := shared_secret, associated_data := ad,
               ephemeral_public := ephemeral_public }, out.2)

/-- `X3DHReceiver::new`, with the RNG draw of the signed prekey embedded as an
explicit atom. -/
def x3dhReceiverNew (idk : Nat) (spk : XSec) : X3DHReceiver :=
  { identity_key := idk, signed_prekey := spk, one_time_prekey := none }

/-- `X3DHInitiator::new`, with the RNG draw of the ephemeral key embedded as
an explicit atom. -/
def x3dhInitiatorNew (idk : Nat) (eph : XSec) : X3DHInitiator :=
  { identity_key := idk, ephemeral_key := eph }

/-- The states reachable through the public `RatchetState` interface. -/
inductive Reachable : RatchetState → Prop where
  | alice : ∀ ss rpub idk rid tag, Reachable (init_alice ss rpub idk rid tag)
  | bob : ∀ ss dhk idk tag, Reachable (init_bob ss dhk idk tag)
  | encryptStep : ∀ s p ad, Reachable s → Reachable (encrypt s p ad).2
  | decryptStep : ∀ s m ad, Reachable s → Reachable (decrypt s m ad).2
  | setRemote : ∀ s k, Reachable s → Reachable (set_remote_identity s k)

instance {ε α : Type} [DecidableEq ε] [DecidableEq α] : DecidableEq (Except ε α) :=
  fun a b => by
    cases a <;> cases b <;>
      first
      | exact isFalse (fun h => Except.noConfusion h)
      | · rename_i x y
          exact decidable_of_iff (x = y) ⟨fun h => by rw [h], fun h => by cases h; rfl⟩

/-- Whether an `Except` value is a success. -/
def exceptIsOk {α : Type} : Except CryptoError α → Bool
  | Except.ok _ => true
  | Except.error _ => false

/-! Concrete fixtures used by the counterexamples and witnesses below.
Identity 0 plays Alice, identity 1 plays Bob. -/

/-- Bob's X3DH receiver after `new` and `add_one_time_prekey` (the scenario of
the repository's own `test_x3dh_key_agreement`). -/
def rxBob : X3DHReceiver := add_one_time_prekey (x3dhReceiverNew 1 (XSec.named 0)) (XSec.named 2)

/-- Alice's X3DH initiator. -/
def iniAlice : X3DHInitiator := x3dhInitiatorNew 0 (XSec.named 1)

/-- Placeholder result used by the total extractors below. -/
def x3dhResDummy : X3DHResult :=
  { shared_secret := Tm.lit [], associated_data := Tm.lit [],
    ephemeral_public := XPub.ofSec (XSec.named 0) }

/-- Alice's side of the concrete X3DH run. -/
def c1AliceRes : X3DHResult :=
  match initiate iniAlice (generate_bundle rxBob) with
  | Except.ok r => r
  | Except.error _ => x3dhResDummy

/-- Bob's side of the concrete X3DH run (Bob receives Alice's true identity
key and her true ephemeral public key). -/
def c1BobRes : X3DHResult :=
  match (x3dhReceive rxBob (EdPub.ofSec 0) (XPub.ofSec (XSec.named 1))).1 with
  | Except.ok r => r
  | Except.error _ => x3dhResDummy

/-- Alice's concrete ratchet session (shared secret `keyNamed 0`, Bob's DH
public key `named 0`, her identity 0, Bob's identity 1). -/
def aliceSt : RatchetState :=
  init_alice (Tm.keyNamed 0) (XPub.ofSec (XSec.named 0)) 0 (EdPub.ofSec 1) 0

/-- Bob's matching ratchet session, before `set_remote_identity`. -/
def bobSt : RatchetState := init_bob (Tm.keyNamed 0) (XSec.named 0) 1 1

/-- Bob's session with Alice's identity attached. -/
def bobStId : RatchetState := set_remote_identity bobSt (EdPub.ofSec 0)

/-- Placeholder message used by the total extractors below. -/
def msgDummy : RatchetMessage :=
  { header := { dh_public := XPub.ofSec (XSec.named 0), prev_chain_length := 0,
                message_number := 0 },
    ciphertext := Tm.lit [], signature := Tm.lit [] }

/-- The first message Alice's session produces (plaintext `[7]`, empty
associated data). -/
def aliceMsg : RatchetMessage :=
  match (encrypt aliceSt [7] []).1 with
  | Except.ok m => m
  | Except.error _ => msgDummy

/-- `aliceMsg` with one bit of the ciphertext flipped. -/
def tamperedMsg : RatchetMessage :=
  { aliceMsg with ciphertext := Tm.flip aliceMsg.ciphertext 0 }

/-- `aliceMsg` with one bit of the signature flipped. -/
def sigFlipMsg : RatchetMessage :=
  { aliceMsg with signature := Tm.flip aliceMsg.signature 0 }

/-- Alice's session after producing `aliceMsg`. -/
def aliceSt2 : RatchetState := (encrypt aliceSt [7] []).2

/-- The sender public key named in the two crafted messages of the
`skipped_keys` growth scenario. -/
def c5P : XPub := XPub.ofSec (XSec.named 5)

/-- A crafted message announcing message number `MAX_SKIP` on a new chain. -/
def c5M1 : RatchetMessage :=
  { header := { dh_public := c5P, prev_chain_length := 0, message_number := 1000 },
    ciphertext := Tm.lit [], signature := Tm.lit [] }

/-- A second crafted message announcing message number `2 * MAX_SKIP`. -/
def c5M2 : RatchetMessage :=
  { header := { dh_public := c5P, prev_chain_length := 0, message_number := 2000 },
    ciphertext := Tm.lit [], signature := Tm.lit [] }

/-- A stored skipped message key. -/
def w9mk : MessageKeys :=
  { encryption_key := Tm.keyNamed 1, auth_key := Tm.keyNamed 2, iv := Tm.keyNamed 3 }

/-- Bob's state holding one skipped message key. -/
def w9s : RatchetState :=
  { bobSt with skipped_keys := [((XPub.ofSec (XSec.named 0), 5), w9mk)] }

/-- A message addressing the stored skipped key, with a ciphertext that fails
AEAD. -/
def w9m : RatchetMessage :=
  { header := { dh_public := XPub.ofSec (XSec.named 0), prev_chain_length := 0,
                message_number := 5 },
    ciphertext := Tm.lit [1], signature := Tm.lit [] }

/-- Bob's state after the first crafted message alone. -/
def c5State1 : RatchetState := (decrypt bobSt c5M1 []).2

/-- The receiving chain key derived by the DH ratchet step that the first
crafted message triggers. -/
def c5ck1 : Tm :=
  Tm.hkdf (Tm.dhS (XSec.named 0) (XSec.named 5)) (Tm.keyNamed 0) (Tm.lit (ascii "chain-key"))

/-- The receiving chain key held after the first crafted message (the skip
loop's final chain, stepped once more by the failed decryption attempt). -/
def c5ckr : Tm := Tm.hmac (skipLoop c5P 1000 c5ck1 0 []).1 (Tm.lit [2])

/-- A state with a receiving chain and a remote key, used to exercise the
skip bound. -/
def w5s : RatchetState :=
  { bobSt with chain_key_recv := some (Tm.keyNamed 4), dh_remote := some c5P }

/-! Helper lemmas about the skipped-keys store and the skip loop. -/

theorem skipLoop_counter (r : XPub) : ∀ (n : Nat) (ck : Tm) (c : Nat) (m : SkMap),
    (skipLoop r n ck c m).2.1 = c + n := by
  intro n
  induction n with
  | zero => intro ck c m; rfl
  | succ k ih =>
      intro ck c m
      simp only [skipLoop, ih]
      omega

theorem mapInsert_fresh (k : XPub × Nat) (v : MessageKeys) :
    ∀ (m : SkMap), k ∉ m.map Prod.fst → mapInsert m k v = m ++ [(k, v)] := by
  intro m
  induction m with
  | nil => intro _; rfl
  | cons e rest ih =>
      intro h
      simp only [List.map_cons, List.mem_cons] at h
      push_neg at h
      simp only [mapInsert]
      rw [if_neg (fun he => h.1 he.symm), ih h.2]
      rfl

theorem mapInsert_length_le (k : XPub × Nat) (v : MessageKeys) :
    ∀ (m : SkMap), (mapInsert m k v).length ≤ m.length + 1 := by
  intro m
  induction m with
  | nil => simp [mapInsert]
  | cons e rest ih =>
      simp only [mapInsert]
      by_cases he : e.1 = k
      · simp [he]
      · simp only [if_neg he, List.length_cons]
        omega

theorem skipLoop_length_le (r : XPub) : ∀ (n : Nat) (ck : Tm) (c : Nat) (m : SkMap),
    ((skipLoop r n ck c m).2.2).length ≤ m.length + n := by
  intro n
  induction n with
  | zero => intro ck c m; simp [skipLoop]
  | succ k ih =>
      intro ck c m
      simp only [skipLoop]
      calc ((skipLoop r k (kdf_message_keys ck).2 (c+1) (mapInsert m (r, c) (kdf_message_keys ck).1)).2.2).length
          ≤ (mapInsert m (r, c) (kdf_message_keys ck).1).length + k := ih _ _ _
        _ ≤ m.length + 1 + k := by have := mapInsert_length_le (r, c) (kdf_message_keys ck).1 m; omega
        _ ≤ m.length + (k + 1) := by omega

theorem skipLoop_keys (r : XPub) : ∀ (n : Nat) (ck : Tm) (c : Nat) (m : SkMap),
    (∀ i, i < n → ((r, c + i) : XPub × Nat) ∉ m.map Prod.fst) →
    ((skipLoop r n ck c m).2.2).map Prod.fst
      = m.map Prod.fst ++ (List.range n).map (fun i => (r, c + i)) := by
  intro n
  induction n with
  | zero => intro ck c m _; simp [skipLoop]
  | succ k ih =>
      intro ck c m h
      simp only [skipLoop]
      have h0 : ((r, c) : XPub × Nat) ∉ m.map Prod.fst := by
        have := h 0 (Nat.succ_pos k); simpa using this
      have hins := mapInsert_fresh (r, c) (kdf_message_keys ck).1 m h0
      rw [ih _ _ _ ?fresh]
      case fresh =>
        intro i hi
        rw [hins]
        simp only [List.map_append, List.mem_append, List.map_cons, List.map_nil,
          List.mem_singleton]
        push_neg
        constructor
        · have := h (i + 1) (by omega)
          have harith : c + (i + 1) = c + 1 + i := by omega
          rw [harith] at this
          exact this
        · intro he
          have : c + 1 + i = c := (Prod.mk.injEq _ _ _ _).mp he |>.2
          omega
      rw [hins]
      simp only [List.map_append, List.map_cons, List.map_nil, List.append_assoc,
        List.range_succ_eq_map, List.map_map]
      congr 1
      simp only [List.cons_append, List.nil_append]
      congr 1
      refine List.map_congr_left ?_
      intro i _
      simp only [Function.comp_apply]
      congr 1
      omega

theorem mapRemove_eq_none : ∀ (m : SkMap) (k : XPub × Nat),
    mapRemove m k = none ↔ k ∉ m.map Prod.fst := by
  intro m
  induction m with
  | nil => intro k; simp [mapRemove]
  | cons e rest ih =>
      intro k
      simp only [mapRemove, List.map_cons, List.mem_cons]
      by_cases he : e.1 = k
      · simp [he]
      · simp only [if_neg he, Option.map_eq_none', ih]
        constructor
        · intro hn hor
          rcases hor with h1 | h2
          · exact he h1.symm
          · exact hn h2
        · intro hni
          exact fun h2 => hni (Or.inr h2)

/-- `decrypt` returns `InvalidSignature` and leaves the state untouched
whenever the signature gate rejects. -/
theorem decrypt_sig_fail (s : RatchetState) (m : RatchetMessage) (adb : List Nat)
    (h : sigOk s m = false) :
    decrypt s m adb = (Except.error CryptoError.InvalidSignature, s) := by
  simp [decrypt, h]

/-- The state reached after the first crafted skip message: no remote
identity, remote DH key `c5P`, receive counter 1000, a receiving chain, and a
skipped-key store whose keys are exactly `(c5P, 0) … (c5P, 999)`. -/
theorem c5s1_facts :
    c5State1.remote_identity = none ∧
    c5State1.dh_remote = some c5P ∧
    c5State1.recv_counter = 1000 ∧
    c5State1.chain_key_recv = some c5ckr ∧
    c5State1.skipped_keys.map Prod.fst = (List.range 1000).map (fun i => (c5P, i)) := by
  refine ⟨?_, ?_, ?_, ?_, ?_⟩
  case _ => simp [c5State1, decrypt, sigOk, bobSt, init_bob, c5M1, c5P, mapRemove,
    skipMessageKeys, dh_ratchet, kdf_rk, kdf_hkdf, kdf_message_keys, aeadOpen,
    MAX_SKIP, U32, dh, XSec.code]
  case _ => simp [c5State1, decrypt, sigOk, bobSt, init_bob, c5M1, c5P, mapRemove,
    skipMessageKeys, dh_ratchet, kdf_rk, kdf_hkdf, kdf_message_keys, aeadOpen,
    MAX_SKIP, U32, dh, XSec.code]
  case _ => simp [c5State1, decrypt, sigOk, bobSt, init_bob, c5M1, c5P, mapRemove,
    skipMessageKeys, dh_ratchet, kdf_rk, kdf_hkdf, kdf_message_keys, aeadOpen,
    MAX_SKIP, U32, dh, XSec.code, skipLoop_counter]
  case _ => simp [c5State1, decrypt, sigOk, bobSt, init_bob, c5M1, c5P, c5ckr, c5ck1,
    mapRemove, skipMessageKeys, dh_ratchet, kdf_rk, kdf_hkdf, kdf_message_keys, aeadOpen,
    MAX_SKIP, U32, dh, XSec.code]
  case _ =>
    simp [c5State1, decrypt, sigOk, bobSt, init_bob, c5M1, c5P, mapRemove,
      skipMessageKeys, dh_ratchet, kdf_rk, kdf_hkdf, kdf_message_keys, aeadOpen,
      MAX_SKIP, U32, dh, XSec.code]
    rw [skipLoop_keys _ 1000 _ 0 [] (by simp)]
    simp

/-! Claim theorems. -/

/-- C1 (code bug).  The spec requires `x3dh_initiate` and `x3dh_receive` to
derive byte-identical roots, and the repository's own
`test_x3dh_key_agreement` asserts this; but because
`ed25519_to_x25519_public` hashes the Ed25519 public key instead of applying
the birational map, DH1 and DH2 are computed over unrelated curve points on
the two sides.  On the concrete run mirroring the repository's test, the
associated data agree but the shared secrets differ. -/
theorem c1_x3dh_root_mismatch :
    initiate iniAlice (generate_bundle rxBob) = Except.ok c1AliceRes ∧
    (x3dhReceive rxBob (EdPub.ofSec 0) (XPub.ofSec (XSec.named 1))).1 = Except.ok c1BobRes ∧
    c1AliceRes.ephemeral_public = XPub.ofSec (XSec.named 1) ∧
    c1AliceRes.associated_data = c1BobRes.associated_data ∧
    c1AliceRes.shared_secret ≠ c1BobRes.shared_secret := by decide

/-- C2 (confirmed).  For every session pair initialised from the same shared
secret — Alice via `init_alice` with Bob's DH public key, Bob via `init_bob`
with the matching DH secret and Alice's identity attached — and for every
plaintext `p` and associated data `ad`, Bob's `decrypt` of the message Alice's
`encrypt` produces, with the same `ad`, returns exactly `p`. -/
theorem c2_encrypt_decrypt_round_trip (ss : Tm) (bobDh : XSec) (aId bId tagA tagB : Nat)
    (p adb : List Nat) :
    ∃ m a2,
      encrypt (init_alice ss (XPub.ofSec bobDh) aId (EdPub.ofSec bId) tagA) p adb
        = (Except.ok m, a2) ∧
      (decrypt (set_remote_identity (init_bob ss bobDh bId tagB) (EdPub.ofSec aId)) m adb).1
        = Except.ok p := by
  refine ⟨_, _, rfl, ?_⟩
  simp [decrypt, sigOk, verifySig, encrypt, init_alice, init_bob, set_remote_identity,
    dh_ratchet, skipMessageKeys, skipLoop, kdf_rk, kdf_hkdf, kdf_message_keys,
    mapRemove, aeadOpen, encodeHeader, dh_comm bobDh, MAX_SKIP, U32]

/-- C3 (counterexample).  The claim quantifies over every reachable state,
but a reachable state with no remote identity (Bob straight from `init_bob`)
skips signature verification: a validly produced message whose ciphertext has
one bit flipped is processed, fails AEAD with `DecryptionFailed` (not
`INVALID_SIGNATURE`), and mutates the state (DH ratchet, chain replacement,
skip bookkeeping) before failing. -/
theorem c3_tamper_mutates_state_cex :
    (encrypt aliceSt [7] []).1 = Except.ok aliceMsg ∧
    tamperedMsg.header = aliceMsg.header ∧
    tamperedMsg.ciphertext = Tm.flip aliceMsg.ciphertext 0 ∧
    tamperedMsg.signature = aliceMsg.signature ∧
    Reachable bobSt ∧
    (decrypt bobSt tamperedMsg []).1 = Except.error CryptoError.DecryptionFailed ∧
    (decrypt bobSt tamperedMsg []).2 ≠ bobSt := by
  refine ⟨by decide, by decide, by decide, by decide, Reachable.bob _ _ _ _, by decide,
    by decide⟩

/-- C3 (amended).  For every ratchet state whose remote identity is set, any
message obtained from a validly signed message by changing its header bytes,
its ciphertext, or its signature is rejected by `decrypt` with
`INVALID_SIGNATURE`, and the state is returned unchanged. -/
theorem c3_tamper_rejected_amended (s : RatchetState) (kid : Nat)
    (m m2 : RatchetMessage) (adb : List Nat)
    (hrem : s.remote_identity = some (EdPub.ofSec kid))
    (hvalid : m.signature = Tm.sigBytes kid (Tm.app (encodeHeader m.header) m.ciphertext))
    (htamper :
      (encodeHeader m2.header ≠ encodeHeader m.header ∧ m2.ciphertext = m.ciphertext ∧
        m2.signature = m.signature) ∨
      (m2.header = m.header ∧ m2.ciphertext ≠ m.ciphertext ∧ m2.signature = m.signature) ∨
      (m2.header = m.header ∧ m2.ciphertext = m.ciphertext ∧ m2.signature ≠ m.signature)) :
    decrypt s m2 adb = (Except.error CryptoError.InvalidSignature, s) := by
  apply decrypt_sig_fail
  simp only [sigOk, hrem, verifySig, decide_eq_false_iff_not]
  rcases htamper with ⟨h1, h2, h3⟩ | ⟨h1, h2, h3⟩ | ⟨h1, h2, h3⟩
  · rw [h2, h3, hvalid]
    intro he
    have ha := ((Tm.sigBytes.injEq _ _ _ _).mp he).2
    have hb := ((Tm.app.injEq _ _ _ _).mp ha).1
    exact h1 hb.symm
  · rw [h1, h3, hvalid]
    intro he
    have ha := ((Tm.sigBytes.injEq _ _ _ _).mp he).2
    have hb := ((Tm.app.injEq _ _ _ _).mp ha).2
    exact h2 hb.symm
  · rw [h1, h2, ← hvalid]
    exact h3

/-- C3 witness: the amended theorem applied to Bob's identity-attached state
and Alice's first message with a flipped signature bit. -/
theorem c3_tamper_rejected_witness :
    bobStId.remote_identity = some (EdPub.ofSec 0) ∧
    aliceMsg.signature = Tm.sigBytes 0 (Tm.app (encodeHeader aliceMsg.header) aliceMsg.ciphertext) ∧
    (sigFlipMsg.header = aliceMsg.header ∧ sigFlipMsg.ciphertext = aliceMsg.ciphertext ∧
      sigFlipMsg.signature ≠ aliceMsg.signature) ∧
    decrypt bobStId sigFlipMsg [] = (Except.error CryptoError.InvalidSignature, bobStId) :=
  ⟨by decide, by decide, by decide,
   c3_tamper_rejected_amended bobStId 0 aliceMsg sigFlipMsg [] (by decide) (by decide)
     (Or.inr (Or.inr (by decide)))⟩

/-- C4 (confirmed).  For every state holding a remote identity and every
message whose signature is not that identity's signature over the serialised
header plus ciphertext, `decrypt` fails with `INVALID_SIGNATURE` and returns
the state completely unchanged: no DH ratchet, no chain replacement, no
counter change, no skipped-key change. -/
theorem c4_invalid_signature_no_advance (s : RatchetState) (kid : Nat)
    (m : RatchetMessage) (adb : List Nat)
    (hrem : s.remote_identity = some (EdPub.ofSec kid))
    (hsig : m.signature ≠ Tm.sigBytes kid (Tm.app (encodeHeader m.header) m.ciphertext)) :
    decrypt s m adb = (Except.error CryptoError.InvalidSignature, s) := by
  apply decrypt_sig_fail
  simp [sigOk, hrem, verifySig, hsig]

/-- C4 witness: Bob's identity-attached state rejects the message with the
flipped signature and is unchanged. -/
theorem c4_invalid_signature_witness :
    bobStId.remote_identity = some (EdPub.ofSec 0) ∧
    sigFlipMsg.signature
      ≠ Tm.sigBytes 0 (Tm.app (encodeHeader sigFlipMsg.header) sigFlipMsg.ciphertext) ∧
    decrypt bobStId sigFlipMsg [] = (Except.error CryptoError.InvalidSignature, bobStId) :=
  ⟨by decide, by decide, c4_invalid_signature_no_advance bobStId 0 sigFlipMsg []
    (by decide) (by decide)⟩

/-- C5 (counterexample).  The skipped-key store is not bounded by `MAX_SKIP`:
the guard only limits each individual gap, and gaps accumulate.  After two
crafted messages (numbers 1000 and 2000) a reachable state holds 2000
skipped keys. -/
theorem c5_skipped_keys_unbounded_cex :
    Reachable ((decrypt (decrypt bobSt c5M1 []).2 c5M2 []).2) ∧
    MAX_SKIP < ((decrypt (decrypt bobSt c5M1 []).2 c5M2 []).2).skipped_keys.length := by
  have e1 : (decrypt bobSt c5M1 []).2 = c5State1 := rfl
  rw [e1]
  obtain ⟨f1, f2, f3, f4, f5⟩ := c5s1_facts
  constructor
  · exact Reachable.decryptStep _ c5M2 []
      (Reachable.decryptStep _ c5M1 [] (Reachable.bob _ _ _ _))
  · have hrm : mapRemove c5State1.skipped_keys (c5P, 2000) = none := by
      rw [mapRemove_eq_none, f5]
      simp only [List.mem_map, List.mem_range, Prod.mk.injEq, not_exists, not_and]
      intro i hi _
      omega
    have hfresh : ∀ i, i < 1000 →
        ((c5P, 1000 + i) : XPub × Nat) ∉ c5State1.skipped_keys.map Prod.fst := by
      rw [f5]
      intro i hi
      simp only [List.mem_map, List.mem_range, Prod.mk.injEq, not_exists, not_and]
      intro j hj _
      omega
    have hkeys : ((decrypt c5State1 c5M2 []).2).skipped_keys.map Prod.fst
        = c5State1.skipped_keys.map Prod.fst
          ++ (List.range 1000).map (fun i => (c5P, 1000 + i)) := by
      simp [decrypt, sigOk, f1, hrm, f2, f4, f3, skipMessageKeys, c5M2,
        MAX_SKIP, U32, aeadOpen, kdf_message_keys]
      rw [skipLoop_keys _ 1000 _ 1000 _ hfresh]
    have hlen := congrArg List.length hkeys
    have hlen5 := congrArg List.length f5
    simp only [List.length_map, List.length_append, List.length_range] at hlen hlen5
    simp only [MAX_SKIP]
    omega

/-- C5 (amended).  The bound is per call: with a receiving chain and remote
key present, a skip of `MAX_SKIP + 1` past `recv_counter` fails with the
`TOO_MANY_SKIPPED` error (`DecryptionFailed`) leaving the state unchanged,
while a skip of exactly `MAX_SKIP` succeeds and adds at most `MAX_SKIP`
entries to the store in that call. -/
theorem c5_skip_bound_amended (s : RatchetState) (ck : Tm) (r : XPub)
    (h1 : s.chain_key_recv = some ck) (h2 : s.dh_remote = some r)
    (h3 : s.recv_counter + MAX_SKIP + 1 < U32) :
    skipMessageKeys s (s.recv_counter + MAX_SKIP + 1)
      = (Except.error CryptoError.DecryptionFailed, s) ∧
    ∃ s2, skipMessageKeys s (s.recv_counter + MAX_SKIP) = (Except.ok (), s2) ∧
      s2.recv_counter = s.recv_counter + MAX_SKIP ∧
      s2.skipped_keys.length ≤ s.skipped_keys.length + MAX_SKIP := by
  have hmod : (s.recv_counter + MAX_SKIP) % U32 = s.recv_counter + MAX_SKIP :=
    Nat.mod_eq_of_lt (by omega)
  constructor
  · unfold skipMessageKeys
    rw [hmod, if_pos (by omega)]
  · unfold skipMessageKeys
    rw [hmod, if_neg (by omega), h1, h2]
    refine ⟨_, rfl, ?_, ?_⟩
    · simp only [Nat.add_sub_cancel_left, skipLoop_counter]
    · simp only [Nat.add_sub_cancel_left]
      exact skipLoop_length_le r MAX_SKIP ck s.recv_counter s.skipped_keys

/-- C5 witness: the amended theorem applied to a concrete state with a
receiving chain and a remote key. -/
theorem c5_skip_bound_witness :
    w5s.chain_key_recv = some (Tm.keyNamed 4) ∧
    w5s.dh_remote = some c5P ∧
    w5s.recv_counter + MAX_SKIP + 1 < U32 ∧
    (skipMessageKeys w5s (w5s.recv_counter + MAX_SKIP + 1)
        = (Except.error CryptoError.DecryptionFailed, w5s) ∧
      ∃ s2, skipMessageKeys w5s (w5s.recv_counter + MAX_SKIP) = (Except.ok (), s2) ∧
        s2.recv_counter = w5s.recv_counter + MAX_SKIP ∧
        s2.skipped_keys.length ≤ w5s.skipped_keys.length + MAX_SKIP) :=
  ⟨by decide, by decide, by decide,
   c5_skip_bound_amended w5s (Tm.keyNamed 4) c5P (by decide) (by decide) (by decide)⟩

/-- C6 (counterexample).  The signature produced by `encrypt` is not over the
spec's canonical encoding (32-byte public key, big-endian 4-byte fields): the
source signs the bincode serialisation, which prepends an 8-byte little-endian
length prefix and encodes the counters little-endian. -/
theorem c6_encoding_cex :
    (encrypt aliceSt [7] []).1 = Except.ok aliceMsg ∧
    aliceMsg.signature ≠ Tm.sigBytes aliceSt.identity_key
      (Tm.app (canonicalEncodeSpec aliceMsg.header) aliceMsg.ciphertext) := by decide

/-- C6 (amended).  Every message produced by `encrypt` carries an Ed25519
signature over the bincode encoding of the header (8-byte little-endian
length prefix of the 32-byte DH public key, the key bytes, little-endian
4-byte `prev_chain_length`, little-endian 4-byte `message_number`) followed by
the ciphertext, and `decrypt` verifies over the same encoding. -/
theorem c6_signature_encoding_amended (s : RatchetState) (p adb : List Nat)
    (m : RatchetMessage) (s2 : RatchetState) (h : encrypt s p adb = (Except.ok m, s2)) :
    m.signature = Tm.sigBytes s.identity_key (Tm.app (encodeHeader m.header) m.ciphertext) ∧
    ∀ (r : RatchetState) (k : EdPub), r.remote_identity = some k →
      sigOk r m = verifySig k (Tm.app (encodeHeader m.header) m.ciphertext) m.signature := by
  constructor
  · cases hs : s.chain_key_send with
    | none => simp [encrypt, hs] at h
    | some ck =>
        simp only [encrypt, hs, Prod.mk.injEq, Except.ok.injEq] at h
        rw [← h.1]
  · intro r k hk
    simp [sigOk, hk]

/-- C6 witness: the amended theorem applied to Alice's first message. -/
theorem c6_signature_encoding_witness :
    encrypt aliceSt [7] [] = (Except.ok aliceMsg, aliceSt2) ∧
    (aliceMsg.signature = Tm.sigBytes aliceSt.identity_key
        (Tm.app (encodeHeader aliceMsg.header) aliceMsg.ciphertext) ∧
      ∀ (r : RatchetState) (k : EdPub), r.remote_identity = some k →
        sigOk r aliceMsg
          = verifySig k (Tm.app (encodeHeader aliceMsg.header) aliceMsg.ciphertext)
              aliceMsg.signature) :=
  ⟨by decide, c6_signature_encoding_amended aliceSt [7] [] aliceMsg aliceSt2 (by decide)⟩

/-- C7 (counterexample).  The first `receive` does delete the one-time
prekey, but a second `receive` does not fail with `UNKNOWN_OTPK` (no such
error exists in the source): it succeeds, silently deriving a secret without
the DH4 component. -/
theorem c7_second_receive_cex :
    rxBob.one_time_prekey = some (XSec.named 2) ∧
    ((x3dhReceive rxBob (EdPub.ofSec 0) (XPub.ofSec (XSec.named 1))).2).one_time_prekey
      = none ∧
    exceptIsOk ((x3dhReceive (x3dhReceive rxBob (EdPub.ofSec 0) (XPub.ofSec (XSec.named 1))).2
      (EdPub.ofSec 0) (XPub.ofSec (XSec.named 1))).1) = true := by decide

/-- C7 (amended).  For every receiver holding a one-time prekey, the first
`receive` consumes (deletes) it; a second `receive` does not fail — it
returns a success, computed without the one-time-prekey DH term. -/
theorem c7_otpk_consumed_amended (r : X3DHReceiver) (i : EdPub) (e e2 : XPub) (k : XSec)
    (h : r.one_time_prekey = some k) :
    ((x3dhReceive r i e).2).one_time_prekey = none ∧
    exceptIsOk ((x3dhReceive (x3dhReceive r i e).2 i e2).1) = true := by
  simp [x3dhReceive, h, exceptIsOk]

/-- C7 witness: the amended theorem applied to Bob's receiver. -/
theorem c7_otpk_consumed_witness :
    rxBob.one_time_prekey = some (XSec.named 2) ∧
    (((x3dhReceive rxBob (EdPub.ofSec 0) (XPub.ofSec (XSec.named 1))).2).one_time_prekey
        = none ∧
      exceptIsOk ((x3dhReceive
        (x3dhReceive rxBob (EdPub.ofSec 0) (XPub.ofSec (XSec.named 1))).2
        (EdPub.ofSec 0) (XPub.ofSec (XSec.named 1))).1) = true) :=
  ⟨by decide, c7_otpk_consumed_amended rxBob (EdPub.ofSec 0) (XPub.ofSec (XSec.named 1))
    (XPub.ofSec (XSec.named 1)) (XSec.named 2) (by decide)⟩

/-- C8 (counterexample).  With no receiving chain present,
`skip_message_keys` does not fail with `NOT_INITIALISED` (no such error
exists in the source): it silently succeeds, returning `Ok` with the state
unchanged. -/
theorem c8_silent_success_cex :
    bobSt.chain_key_recv = none ∧
    skipMessageKeys bobSt 5 = (Except.ok (), bobSt) := by decide

/-- C8 (amended).  For every state with no receiving chain, a skip within the
`MAX_SKIP` guard silently succeeds and leaves the state unchanged (this is
what lets the very first inbound message pass the pre-ratchet skip call). -/
theorem c8_skip_no_chain_amended (s : RatchetState) (u : Nat)
    (hc : s.chain_key_recv = none)
    (hg : ¬ (s.recv_counter + MAX_SKIP) % U32 < u) :
    skipMessageKeys s u = (Except.ok (), s) := by
  cases hd : s.dh_remote <;> simp [skipMessageKeys, hg, hc, hd]

/-- C8 witness: the amended theorem applied to Bob's fresh state. -/
theorem c8_skip_no_chain_witness :
    bobSt.chain_key_recv = none ∧ ¬ (bobSt.recv_counter + MAX_SKIP) % U32 < 5 ∧
    skipMessageKeys bobSt 5 = (Except.ok (), bobSt) :=
  ⟨by decide, by decide, c8_skip_no_chain_amended bobSt 5 (by decide) (by decide)⟩

/-- C9 (confirmed).  When the signature gate passes and the message's
`(dh_public, message_number)` matches a stored skipped key, `decrypt` removes
the entry and returns the AEAD-open result: on AEAD failure the error is
returned with the entry still removed, and every other field — chain keys,
counters, root key, DH keys — is exactly that of the input state. -/
theorem c9_skipped_key_removed (s : RatchetState) (m : RatchetMessage) (adb : List Nat)
    (mk : MessageKeys) (rest : SkMap)
    (hsig : sigOk s m = true)
    (hrm : mapRemove s.skipped_keys (m.header.dh_public, m.header.message_number)
      = some (mk, rest)) :
    decrypt s m adb =
      (aeadOpen mk.encryption_key mk.iv m.ciphertext
        (Tm.app (encodeHeader m.header) (Tm.lit adb)),
       { s with skipped_keys := rest }) := by
  simp [decrypt, hsig, hrm]

/-- C9 witness: a state holding one skipped key and a message whose AEAD
fails; the entry is removed and everything else is unchanged. -/
theorem c9_skipped_key_removed_witness :
    sigOk w9s w9m = true ∧
    mapRemove w9s.skipped_keys (w9m.header.dh_public, w9m.header.message_number)
      = some (w9mk, []) ∧
    decrypt w9s w9m [] =
      (aeadOpen w9mk.encryption_key w9mk.iv w9m.ciphertext
        (Tm.app (encodeHeader w9m.header) (Tm.lit [])),
       { w9s with skipped_keys := [] }) :=
  ⟨by decide, by decide, c9_skipped_key_removed w9s w9m [] w9mk [] (by decide) (by decide)⟩

/-- C10 (confirmed).  A state whose remote identity is unset (as `init_bob`
produces before `set_remote_identity`) performs no signature verification:
Alice's first message with its signature replaced by arbitrary bytes is
processed, triggers the DH ratchet step (the remote key becomes Alice's), and
returns the plaintext. -/
theorem c10_no_identity_no_verification (ss : Tm) (bobDh : XSec)
    (aId bId tagA tagB : Nat) (p adb : List Nat) (sg : Tm) :
    ∃ m a2,
      encrypt (init_alice ss (XPub.ofSec bobDh) aId (EdPub.ofSec bId) tagA) p adb
        = (Except.ok m, a2) ∧
      (init_bob ss bobDh bId tagB).remote_identity = none ∧
      (decrypt (init_bob ss bobDh bId tagB)
          { header := m.header, ciphertext := m.ciphertext, signature := sg } adb).1
        = Except.ok p ∧
      (decrypt (init_bob ss bobDh bId tagB)
          { header := m.header, ciphertext := m.ciphertext, signature := sg } adb).2.dh_remote
        = some (XPub.ofSec (XSec.fresh tagA 0)) := by
  refine ⟨_, _, rfl, rfl, ?_, ?_⟩ <;>
  simp [decrypt, sigOk, verifySig, encrypt, init_alice, init_bob,
    dh_ratchet, skipMessageKeys, skipLoop, kdf_rk, kdf_hkdf, kdf_message_keys,
    mapRemove, aeadOpen, encodeHeader, dh_comm bobDh, MAX_SKIP, U32]
